import Mathlib

/-!
Shallow embedding of the element-interaction readiness layer of the
page-object automation framework (`Pages/basepage.py`).

The browser session is modelled as a discrete-time trace: at every poll
tick the driver exposes, for each locator, the list of matching elements
(in document order) and the optional alert.  The waiter
(`WebDriverWait.until` / `until_not`) polls the condition once per tick,
checks the condition at ticks `0, 1, ..., timeout` and raises a timeout
failure after the poll following tick `timeout` (so the elapsed time at a
timeout failure is `timeout + 1` poll intervals, never less than the
requested timeout).  Element actions (click, clear, send-keys, select) are
recorded as an explicit action log.
-/

namespace AutomationFramework

/-- Locator strategies (the `By` enumeration of the driver library). -/
inductive By
  | id
  | name
  | className
  | cssSelector
  | xpath
  | tagName
  | linkText
deriving DecidableEq, Repr

/-- A locator: an immutable (strategy, selector) pair. -/
structure Locator where
  strategy : By
  selector : String
deriving DecidableEq, Repr

/-- Snapshot of one DOM element at a poll tick: an identity tag plus the
rendered-state flags the readiness conditions consult. -/
structure Element where
  eid : Nat
  displayed : Bool
  enabled : Bool
  text : String
deriving DecidableEq, Repr

/-- Failures surfaced by the embedded operations. -/
inductive Err
  | timeout
  | noSuchWindow (msg : String)
  | indexError (msg : String)
deriving DecidableEq, Repr

/-- Result of evaluating an expected-condition predicate at one tick:
`found a` is a truthy return value, `notYet` a falsy return value, and
`absent` a raised not-found condition (ignored by the waiter). -/
inductive CondRes (α : Type)
  | found : α → CondRes α
  | notYet : CondRes α
  | absent : CondRes α
deriving DecidableEq, Repr

/-- Whether a condition evaluation produced a truthy value. -/
def CondRes.isFound {α : Type} : CondRes α → Bool
  | .found _ => true
  | _ => false

/-- Discrete-time view of the browser session: matching elements per
locator and the alert, at every poll tick. -/
structure Trace where
  page : Nat → Locator → List Element
  alert : Nat → Option String

/-- Core loop of the waiter (`WebDriverWait.until`): at each tick evaluate
the condition; a truthy value returns immediately, anything else sleeps one
poll interval and retries; after the fuel is exhausted the wait fails with
a timeout.  The second component is the elapsed tick count. -/
def untilGo {α : Type} (cond : Nat → CondRes α) : Nat → Nat → Except Err α × Nat
  | 0, t => (.error .timeout, t)
  | n + 1, t =>
    match cond t with
    | .found a => (.ok a, t)
    | _ => untilGo cond n (t + 1)

/-- `WebDriverWait(driver, timeout).until(cond)`: the condition is checked
at ticks `0 .. timeout`; the timeout failure is only raised once the
elapsed time has strictly exceeded `timeout`. -/
def webDriverWaitUntil {α : Type} (cond : Nat → CondRes α) (timeout : Nat) :
    Except Err α × Nat :=
  untilGo cond (timeout + 1) 0

/-- Core loop of `WebDriverWait.until_not`: a truthy condition value keeps
polling; a falsy value is returned as-is (`false`); a raised not-found
condition returns `true`. -/
def untilNotGo {α : Type} (cond : Nat → CondRes α) : Nat → Nat → Except Err Bool × Nat
  | 0, t => (.error .timeout, t)
  | n + 1, t =>
    match cond t with
    | .found _ => untilNotGo cond n (t + 1)
    | .notYet => (.ok false, t)
    | .absent => (.ok true, t)

/-- `WebDriverWait(driver, timeout).until_not(cond)`. -/
def webDriverWaitUntilNot {α : Type} (cond : Nat → CondRes α) (timeout : Nat) :
    Except Err Bool × Nat :=
  untilNotGo cond (timeout + 1) 0

/-- `EC.presence_of_element_located`: `find_element` returns the first
match or raises a not-found condition. -/
def presence_of_element_located (page : Locator → List Element) (loc : Locator) :
    CondRes Element :=
  match page loc with
  | [] => .absent
  | e :: _ => .found e

/-- `EC.visibility_of_element_located`: the first match if it is
displayed, a falsy value if present but not displayed, a raised not-found
condition if absent. -/
def visibility_of_element_located (page : Locator → List Element) (loc : Locator) :
    CondRes Element :=
  match page loc with
  | [] => .absent
  | e :: _ => if e.displayed then .found e else .notYet

/-- `EC.element_to_be_clickable`: visible and enabled. -/
def element_to_be_clickable (page : Locator → List Element) (loc : Locator) :
    CondRes Element :=
  match visibility_of_element_located page loc with
  | .found e => if e.enabled then .found e else .notYet
  | .notYet => .notYet
  | .absent => .absent

/-- `EC.presence_of_all_elements_located`: `find_elements` never raises;
an empty list is falsy. -/
def presence_of_all_elements_located (page : Locator → List Element) (loc : Locator) :
    CondRes (List Element) :=
  match page loc with
  | [] => .notYet
  | e :: es => .found (e :: es)

/-- `EC.alert_is_present`: the alert (modelled by its text) or a falsy
value. -/
def alert_is_present (a : Option String) : CondRes String :=
  match a with
  | some s => .found s
  | none => .notYet

/-- Driver-capability actions an operation may perform on the session,
recorded as an explicit log. -/
inductive Action
  | click (e : Element)
  | clear (e : Element)
  | sendKeys (e : Element) (text : String)
  | selectByVisibleText (e : Element) (option_text : String)
  | selectByValue (e : Element) (option_value : String)
  | acceptAlert (a : String)
deriving DecidableEq, Repr

/-- `BasePage.wait_for_element`, together with the elapsed tick count of
its underlying wait. -/
def wait_for_element_timed (trace : Trace) (by_ : By) (value : String)
    (timeout : Nat := 10) : Except Err Element × Nat :=
  webDriverWaitUntil
    (fun t => presence_of_element_located (trace.page t) ⟨by_, value⟩) timeout

/-- `BasePage.wait_for_element`: wait for presence, default timeout 10. -/
def wait_for_element (trace : Trace) (by_ : By) (value : String)
    (timeout : Nat := 10) : Except Err Element :=
  (wait_for_element_timed trace by_ value timeout).1

/-- `BasePage.wait_for_visible_element`: wait for visibility. -/
def wait_for_visible_element (trace : Trace) (by_ : By) (value : String)
    (timeout : Nat := 10) : Except Err Element :=
  (webDriverWaitUntil
    (fun t => visibility_of_element_located (trace.page t) ⟨by_, value⟩) timeout).1

/-- `BasePage.wait_for_invisible_element`: `until_not` over the presence
condition. -/
def wait_for_invisible_element (trace : Trace) (by_ : By) (value : String)
    (timeout : Nat := 10) : Except Err Bool :=
  (webDriverWaitUntilNot
    (fun t => presence_of_element_located (trace.page t) ⟨by_, value⟩) timeout).1

/-- The wait inside `BasePage.is_element_clickable`. -/
def wait_for_clickable_element (trace : Trace) (by_ : By) (value : String)
    (timeout : Nat := 10) : Except Err Element :=
  (webDriverWaitUntil
    (fun t => element_to_be_clickable (trace.page t) ⟨by_, value⟩) timeout).1

/-- `BasePage.wait_for_elements`: wait for all matches (presence of at
least one). -/
def wait_for_elements (trace : Trace) (by_ : By) (value : String)
    (timeout : Nat := 10) : Except Err (List Element) :=
  (webDriverWaitUntil
    (fun t => presence_of_all_elements_located (trace.page t) ⟨by_, value⟩) timeout).1

/-- `BasePage.click_element`: wait for presence (default timeout), then a
single click on the resolved element. -/
def click_element (trace : Trace) (by_ : By) (value : String) :
    Except Err (List Action) :=
  match wait_for_element trace by_ value with
  | .error e => .error e
  | .ok element => .ok [Action.click element]

/-- `BasePage.input_text`: wait for presence, then clear and send keys. -/
def input_text (trace : Trace) (by_ : By) (value : String) (text : String) :
    Except Err (List Action) :=
  match wait_for_element trace by_ value with
  | .error e => .error e
  | .ok element => .ok [Action.clear element, Action.sendKeys element text]

/-- `BasePage.get_element_text`: wait for presence, then read the text. -/
def get_element_text (trace : Trace) (by_ : By) (value : String) :
    Except Err String :=
  match wait_for_element trace by_ value with
  | .error e => .error e
  | .ok element => .ok element.text

/-- `BasePage.select_dropdown_option_by_visible_text`. -/
def select_dropdown_option_by_visible_text (trace : Trace) (by_ : By)
    (value : String) (option_text : String) : Except Err (List Action) :=
  match wait_for_element trace by_ value with
  | .error e => .error e
  | .ok element => .ok [Action.selectByVisibleText element option_text]

/-- `BasePage.select_dropdown_option_by_value`. -/
def select_dropdown_option_by_value (trace : Trace) (by_ : By)
    (value : String) (option_value : String) : Except Err (List Action) :=
  match wait_for_element trace by_ value with
  | .error e => .error e
  | .ok element => .ok [Action.selectByValue element option_value]

/-- `BasePage.is_element_displayed`: the timeout failure of the visibility
wait is caught and converted to `false`; on success the resolved element is
asked `is_displayed()` again. -/
def is_element_displayed (trace : Trace) (by_ : By) (value : String) :
    Except Err Bool :=
  match wait_for_visible_element trace by_ value with
  | .ok element => .ok element.displayed
  | .error .timeout => .ok false
  | .error e => .error e

/-- `BasePage.is_element_clickable`: the timeout failure of the
clickability wait is caught and converted to `false`. -/
def is_element_clickable (trace : Trace) (by_ : By) (value : String)
    (timeout : Nat := 10) : Except Err Bool :=
  match wait_for_clickable_element trace by_ value timeout with
  | .ok _ => .ok true
  | .error .timeout => .ok false
  | .error e => .error e

/-- `BasePage.wait_for_alert`: wait for the alert-present condition; the
alert is modelled by its text. -/
def wait_for_alert (trace : Trace) (timeout : Nat := 10) : Except Err String :=
  (webDriverWaitUntil (fun t => alert_is_present (trace.alert t)) timeout).1

/-- `BasePage.accept_alert`: wait for the alert, then accept it. -/
def accept_alert (trace : Trace) : Except Err (List Action) :=
  match wait_for_alert trace with
  | .error e => .error e
  | .ok a => .ok [Action.acceptAlert a]

/-- `BasePage.get_alert_text`: wait for the alert, then read its text. -/
def get_alert_text (trace : Trace) : Except Err String :=
  match wait_for_alert trace with
  | .error e => .error e
  | .ok a => .ok a

/-- Python list indexing: nonnegative indices from the front, negative
indices count from the back (`l[i]` is `l[len(l) + i]`), out of range on
either side is an index error. -/
def pyIndex {α : Type} (l : List α) (i : Int) : Option α :=
  if 0 ≤ i then l.get? i.toNat
  else if 0 ≤ (l.length : Int) + i then l.get? ((l.length : Int) + i).toNat
  else none

/-- `BasePage.click_elements`: wait for all matches (default timeout);
with an index, unguarded Python indexing then one click; without, click
every match in order. -/
def click_elements (trace : Trace) (by_ : By) (value : String)
    (index : Option Int := none) : Except Err (List Action) :=
  match wait_for_elements trace by_ value with
  | .error e => .error e
  | .ok elements =>
    match index with
    | some i =>
      match pyIndex elements i with
      | some e => .ok [Action.click e]
      | none => .error (.indexError "list index out of range")
    | none => .ok (elements.map Action.click)

/-- One browser window: its handle, title and URL. -/
structure Window where
  handle : String
  title : String
  url : String
deriving DecidableEq, Repr

/-- Window-focus state of the session: the handle list
(`driver.window_handles`, in order) and the current handle. -/
structure WindowState where
  windows : List Window
  current : String
deriving DecidableEq, Repr

/-- `driver.switch_to.window(handle)`: change the focused handle. -/
def switchToWindow (s : WindowState) (h : String) : WindowState :=
  { s with current := h }

/-- The window the session is focused on, if its handle is known. -/
def currentWindow (s : WindowState) : Option Window :=
  s.windows.find? (fun w => w.handle == s.current)

/-- `driver.title`: the title of the focused window. -/
def driverTitle (s : WindowState) : String :=
  ((currentWindow s).map Window.title).getD ""

/-- `driver.current_url`: the URL of the focused window. -/
def driverUrl (s : WindowState) : String :=
  ((currentWindow s).map Window.url).getD ""

/-- Whether one character list starts with another. -/
def listStarts : List Char → List Char → Bool
  | [], _ => true
  | _ :: _, [] => false
  | a :: as, b :: bs => if a = b then listStarts as bs else false

/-- Whether the first character list occurs inside the second. -/
def listContainsSub (needle : List Char) : List Char → Bool
  | [] => listStarts needle []
  | h :: t => listStarts needle (h :: t) || listContainsSub needle t

/-- Python substring containment `needle in haystack`. -/
def strContains (needle haystack : String) : Bool :=
  listContainsSub needle.data haystack.data

/-- Loop body of `BasePage.switch_to_window_by_title`: iterate the handle
list captured at call time; skip the handle current at call time; switch
to every other handle and stop at the first whose title contains the
searched substring; raise a no-such-window failure when the list is
exhausted.  The state at the raise is whatever the loop left focused. -/
def windowTitleSearch (window_title current_handle : String) :
    List Window → WindowState → WindowState × Option Err
  | [], s =>
    (s, some (.noSuchWindow ("No window with title " ++ window_title ++ " found.")))
  | w :: rest, s =>
    if w.handle = current_handle then
      windowTitleSearch window_title current_handle rest s
    else
      let s1 := switchToWindow s w.handle
      if strContains window_title (driverTitle s1) then (s1, none)
      else windowTitleSearch window_title current_handle rest s1

/-- `BasePage.switch_to_window_by_title`. -/
def switch_to_window_by_title (s : WindowState) (window_title : String) :
    WindowState × Option Err :=
  windowTitleSearch window_title s.current s.windows s

/-- Loop body of `BasePage.switch_to_window_by_url`; identical to the
title search but matching against `driver.current_url`. -/
def windowUrlSearch (window_url current_handle : String) :
    List Window → WindowState → WindowState × Option Err
  | [], s =>
    (s, some (.noSuchWindow ("No window with URL " ++ window_url ++ " found.")))
  | w :: rest, s =>
    if w.handle = current_handle then
      windowUrlSearch window_url current_handle rest s
    else
      let s1 := switchToWindow s w.handle
      if strContains window_url (driverUrl s1) then (s1, none)
      else windowUrlSearch window_url current_handle rest s1

/-- `BasePage.switch_to_window_by_url`. -/
def switch_to_window_by_url (s : WindowState) (window_url : String) :
    WindowState × Option Err :=
  windowUrlSearch window_url s.current s.windows s

/-- `BasePage.switch_to_window_by_index`: guard `index < len(handles)`,
then unguarded Python list indexing and a switch; otherwise an explicit
index error. -/
def switch_to_window_by_index (s : WindowState) (window_index : Int) :
    WindowState × Option Err :=
  if window_index < (s.windows.length : Int) then
    match pyIndex s.windows window_index with
    | some w => (switchToWindow s w.handle, none)
    | none => (s, some (.indexError "list index out of range"))
  else
    (s, some (.indexError ("Window index " ++ toString window_index ++ " is out of range.")))

/-- A cookie: a mapping with `name` and `value` keys. -/
structure Cookie where
  name : String
  value : String
deriving DecidableEq, Repr

/-- Driver capability `add_cookie`: setting a cookie whose name already
exists replaces it (browser cookie-jar semantics). -/
def driver_add_cookie (jar : List Cookie) (c : Cookie) : List Cookie :=
  jar.filter (fun k => k.name != c.name) ++ [c]

/-- Driver capability `get_cookie`: the first cookie with the requested
name, or none. -/
def driver_get_cookie (jar : List Cookie) (n : String) : Option Cookie :=
  jar.find? (fun k => k.name == n)

/-- `BasePage.add_cookie`: pass-through to the driver. -/
def add_cookie (jar : List Cookie) (cookie_dict : Cookie) : List Cookie :=
  driver_add_cookie jar cookie_dict

/-- `BasePage.get_cookie`: pass-through to the driver. -/
def get_cookie (jar : List Cookie) (cookie_name : String) : Option Cookie :=
  driver_get_cookie jar cookie_name

/-- A session where no locator ever matches and no alert ever appears. -/
def emptyTrace : Trace :=
  { page := fun _ _ => [], alert := fun _ => none }

/-- An element that is present but never displayed nor enabled. -/
def hiddenElem : Element :=
  { eid := 0, displayed := false, enabled := false, text := "hidden" }

/-- A session where every locator always matches exactly the hidden
element, which is present throughout but never visible. -/
def hiddenTrace : Trace :=
  { page := fun _ _ => [hiddenElem], alert := fun _ => none }

/-- Two windows, focus on the first. -/
def demoWindows : WindowState :=
  { windows :=
      [ { handle := "h1", title := "Home", url := "http://a.example" },
        { handle := "h2", title := "Docs", url := "http://b.example" } ],
    current := "h1" }

/-- A single window, focused. -/
def soloWindow : WindowState :=
  { windows := [ { handle := "h1", title := "Home", url := "http://a.example" } ],
    current := "h1" }

theorem CondRes.isFound_iff {α : Type} (r : CondRes α) :
    r.isFound = true ↔ ∃ a, r = .found a := by
  cases r <;> simp [CondRes.isFound]

theorem untilGo_succ_found {α : Type} (cond : Nat → CondRes α) (n t : Nat)
    (a : α) (h : cond t = .found a) :
    untilGo cond (n + 1) t = (.ok a, t) := by
  simp only [untilGo, h]

theorem untilGo_succ_not_found {α : Type} (cond : Nat → CondRes α) (n t : Nat)
    (h : (cond t).isFound = false) :
    untilGo cond (n + 1) t = untilGo cond n (t + 1) := by
  cases hc : cond t with
  | found a => rw [hc, CondRes.isFound] at h; exact absurd h (by simp)
  | notYet => simp only [untilGo, hc]
  | absent => simp only [untilGo, hc]

theorem untilGo_err_iff {α : Type} (cond : Nat → CondRes α) :
    ∀ (n t0 : Nat), (untilGo cond n t0).1 = .error .timeout ↔
      ∀ k, k < n → (cond (t0 + k)).isFound = false := by
  intro n
  induction n with
  | zero =>
    intro t0
    constructor
    · intro _ k hk; omega
    · intro _; rfl
  | succ n ih =>
    intro t0
    cases hf : (cond t0).isFound
    case true =>
      obtain ⟨a, ha⟩ := (CondRes.isFound_iff (cond t0)).1 hf
      rw [untilGo_succ_found cond n t0 a ha]
      constructor
      · intro h; exact absurd h (by simp)
      · intro h
        have h0 := h 0 (by omega)
        rw [Nat.add_zero, hf] at h0
        exact absurd h0 (by simp)
    case false =>
      rw [untilGo_succ_not_found cond n t0 hf, ih (t0 + 1)]
      constructor
      · intro h k hk
        cases k with
        | zero => simpa using hf
        | succ k =>
          have hx := h k (by omega)
          have e : t0 + 1 + k = t0 + (k + 1) := by omega
          rw [e] at hx
          exact hx
      · intro h k hk
        have hx := h (k + 1) (by omega)
        have e : t0 + (k + 1) = t0 + 1 + k := by omega
        rw [e] at hx
        exact hx

theorem untilGo_err_elapsed {α : Type} (cond : Nat → CondRes α) :
    ∀ (n t0 : Nat), (untilGo cond n t0).1 = .error .timeout →
      (untilGo cond n t0).2 = t0 + n := by
  intro n
  induction n with
  | zero => intro t0 _; simp [untilGo]
  | succ n ih =>
    intro t0 h
    cases hf : (cond t0).isFound
    case true =>
      obtain ⟨a, ha⟩ := (CondRes.isFound_iff (cond t0)).1 hf
      rw [untilGo_succ_found cond n t0 a ha] at h
      exact absurd h (by simp)
    case false =>
      rw [untilGo_succ_not_found cond n t0 hf] at h ⊢
      have := ih (t0 + 1) h
      omega

theorem untilGo_fst_cases {α : Type} (cond : Nat → CondRes α) :
    ∀ (n t0 : Nat), (∃ a, (untilGo cond n t0).1 = .ok a) ∨
      (untilGo cond n t0).1 = .error .timeout := by
  intro n
  induction n with
  | zero => intro t0; exact Or.inr rfl
  | succ n ih =>
    intro t0
    cases hf : (cond t0).isFound
    case true =>
      obtain ⟨a, ha⟩ := (CondRes.isFound_iff (cond t0)).1 hf
      exact Or.inl ⟨a, by rw [untilGo_succ_found cond n t0 a ha]⟩
    case false =>
      rw [untilGo_succ_not_found cond n t0 hf]
      exact ih (t0 + 1)

theorem untilGo_ok_found {α : Type} (cond : Nat → CondRes α) :
    ∀ (n t0 : Nat) (a : α), (untilGo cond n t0).1 = .ok a →
      ∃ k, k < n ∧ cond (t0 + k) = .found a := by
  intro n
  induction n with
  | zero => intro t0 a h; exact absurd h (by simp [untilGo])
  | succ n ih =>
    intro t0 a h
    cases hf : (cond t0).isFound
    case true =>
      obtain ⟨b, hb⟩ := (CondRes.isFound_iff (cond t0)).1 hf
      rw [untilGo_succ_found cond n t0 b hb] at h
      refine ⟨0, by omega, ?_⟩
      rw [Nat.add_zero, hb]
      simp only [Except.ok.injEq] at h
      rw [h]
    case false =>
      rw [untilGo_succ_not_found cond n t0 hf] at h
      obtain ⟨k, hk, hc⟩ := ih (t0 + 1) a h
      refine ⟨k + 1, by omega, ?_⟩
      have e : t0 + (k + 1) = t0 + 1 + k := by omega
      rw [e]
      exact hc

theorem untilGo_ok_of_found {α : Type} (cond : Nat → CondRes α) (n t0 : Nat)
    (h : ∃ k, k < n ∧ (cond (t0 + k)).isFound = true) :
    ∃ a, (untilGo cond n t0).1 = .ok a := by
  rcases untilGo_fst_cases cond n t0 with hok | herr
  · exact hok
  · obtain ⟨k, hk, hf⟩ := h
    have := (untilGo_err_iff cond n t0).1 herr k hk
    rw [this] at hf
    exact absurd hf (by simp)

theorem untilNotGo_succ_found {α : Type} (cond : Nat → CondRes α) (n t : Nat)
    (a : α) (h : cond t = .found a) :
    untilNotGo cond (n + 1) t = untilNotGo cond n (t + 1) := by
  simp only [untilNotGo, h]

theorem untilNotGo_succ_notYet {α : Type} (cond : Nat → CondRes α) (n t : Nat)
    (h : cond t = .notYet) :
    untilNotGo cond (n + 1) t = (.ok false, t) := by
  simp only [untilNotGo, h]

theorem untilNotGo_succ_absent {α : Type} (cond : Nat → CondRes α) (n t : Nat)
    (h : cond t = .absent) :
    untilNotGo cond (n + 1) t = (.ok true, t) := by
  simp only [untilNotGo, h]

theorem untilNotGo_err_iff {α : Type} (cond : Nat → CondRes α) :
    ∀ (n t0 : Nat), (untilNotGo cond n t0).1 = .error .timeout ↔
      ∀ k, k < n → (cond (t0 + k)).isFound = true := by
  intro n
  induction n with
  | zero =>
    intro t0
    constructor
    · intro _ k hk; omega
    · intro _; rfl
  | succ n ih =>
    intro t0
    cases hc : cond t0 with
    | found a =>
      rw [untilNotGo_succ_found cond n t0 a hc, ih (t0 + 1)]
      constructor
      · intro h k hk
        cases k with
        | zero => simp [hc, CondRes.isFound]
        | succ k =>
          have hx := h k (by omega)
          have e : t0 + 1 + k = t0 + (k + 1) := by omega
          rw [e] at hx
          exact hx
      · intro h k hk
        have hx := h (k + 1) (by omega)
        have e : t0 + (k + 1) = t0 + 1 + k := by omega
        rw [e] at hx
        exact hx
    | notYet =>
      rw [untilNotGo_succ_notYet cond n t0 hc]
      constructor
      · intro h; exact absurd h (by simp)
      · intro h
        have h0 := h 0 (by omega)
        rw [Nat.add_zero, hc] at h0
        exact absurd h0 (by simp [CondRes.isFound])
    | absent =>
      rw [untilNotGo_succ_absent cond n t0 hc]
      constructor
      · intro h; exact absurd h (by simp)
      · intro h
        have h0 := h 0 (by omega)
        rw [Nat.add_zero, hc] at h0
        exact absurd h0 (by simp [CondRes.isFound])

theorem untilNotGo_cases {α : Type} (cond : Nat → CondRes α)
    (hno : ∀ t, cond t ≠ .notYet) :
    ∀ (n t0 : Nat), (untilNotGo cond n t0).1 = .ok true ∨
      (untilNotGo cond n t0).1 = .error .timeout := by
  intro n
  induction n with
  | zero => intro t0; exact Or.inr rfl
  | succ n ih =>
    intro t0
    cases hc : cond t0 with
    | found a =>
      rw [untilNotGo_succ_found cond n t0 a hc]
      exact ih (t0 + 1)
    | notYet => exact absurd hc (hno t0)
    | absent =>
      rw [untilNotGo_succ_absent cond n t0 hc]
      exact Or.inl rfl

theorem find?_handle_of_nodup (l : List Window)
    (hnd : (l.map Window.handle).Nodup) (w : Window) (hw : w ∈ l) :
    l.find? (fun x => x.handle == w.handle) = some w := by
  induction l with
  | nil => cases hw
  | cons a l ih =>
    rw [List.map_cons, List.nodup_cons] at hnd
    by_cases hah : a.handle = w.handle
    · rcases List.mem_cons.1 hw with hwa | hwl
      · subst hwa
        simp [List.find?_cons]
      · exact absurd (hah ▸ List.mem_map_of_mem Window.handle hwl) hnd.1
    · rcases List.mem_cons.1 hw with hwa | hwl
      · exact absurd (by rw [hwa]) hah
      · have hstep : List.find? (fun x => x.handle == w.handle) (a :: l) =
            List.find? (fun x => x.handle == w.handle) l := by
          simp [List.find?_cons, hah]
        rw [hstep]
        exact ih hnd.2 hwl

theorem driverTitle_switch (s : WindowState) (w : Window)
    (hnd : (s.windows.map Window.handle).Nodup) (hw : w ∈ s.windows) :
    driverTitle (switchToWindow s w.handle) = w.title := by
  unfold driverTitle currentWindow switchToWindow
  simp only
  rw [find?_handle_of_nodup s.windows hnd w hw]
  rfl

theorem driverUrl_switch (s : WindowState) (w : Window)
    (hnd : (s.windows.map Window.handle).Nodup) (hw : w ∈ s.windows) :
    driverUrl (switchToWindow s w.handle) = w.url := by
  unfold driverUrl currentWindow switchToWindow
  simp only
  rw [find?_handle_of_nodup s.windows hnd w hw]
  rfl

theorem windowTitleSearch_err_iff (q cur : String) (all : List Window)
    (hnd : (all.map Window.handle).Nodup) :
    ∀ (rem : List Window) (s : WindowState), s.windows = all →
      (∀ w, w ∈ rem → w ∈ all) →
      (((windowTitleSearch q cur rem s).2 ≠ none) ↔
        ∀ w, w ∈ rem → w.handle = cur ∨ strContains q w.title = false) := by
  intro rem
  induction rem with
  | nil =>
    intro s _ _
    constructor
    · intro _ w hw; cases hw
    · intro _; simp [windowTitleSearch]
  | cons w rest ih =>
    intro s hsw hmem
    by_cases hwc : w.handle = cur
    · rw [show windowTitleSearch q cur (w :: rest) s =
            windowTitleSearch q cur rest s by simp [windowTitleSearch, hwc]]
      rw [ih s hsw (fun x hx => hmem x (List.mem_cons_of_mem w hx))]
      constructor
      · intro h x hx
        rcases List.mem_cons.1 hx with hxw | hxr
        · exact Or.inl (hxw ▸ hwc)
        · exact h x hxr
      · intro h x hx; exact h x (List.mem_cons_of_mem w hx)
    · have htitle : driverTitle (switchToWindow s w.handle) = w.title := by
        have : (s.windows.map Window.handle).Nodup := by rw [hsw]; exact hnd
        exact driverTitle_switch s w this (by rw [hsw]; exact hmem w (List.mem_cons_self w rest))
      by_cases hct : strContains q w.title = true
      · rw [show windowTitleSearch q cur (w :: rest) s = (switchToWindow s w.handle, none) by
          simp [windowTitleSearch, hwc, htitle, hct]]
        constructor
        · intro h; exact absurd rfl h
        · intro h
          rcases h w (List.mem_cons_self w rest) with h1 | h2
          · exact absurd h1 hwc
          · rw [hct] at h2; cases h2
      · have hct' : strContains q w.title = false := by
          cases hcc : strContains q w.title
          · rfl
          · exact absurd hcc hct
        rw [show windowTitleSearch q cur (w :: rest) s =
              windowTitleSearch q cur rest (switchToWindow s w.handle) by
            simp [windowTitleSearch, hwc, htitle, hct']]
        rw [ih (switchToWindow s w.handle) (by rw [← hsw]; rfl)
              (fun x hx => hmem x (List.mem_cons_of_mem w hx))]
        constructor
        · intro h x hx
          rcases List.mem_cons.1 hx with hxw | hxr
          · exact Or.inr (hxw ▸ hct')
          · exact h x hxr
        · intro h x hx; exact h x (List.mem_cons_of_mem w hx)

theorem windowUrlSearch_err_iff (q cur : String) (all : List Window)
    (hnd : (all.map Window.handle).Nodup) :
    ∀ (rem : List Window) (s : WindowState), s.windows = all →
      (∀ w, w ∈ rem → w ∈ all) →
      (((windowUrlSearch q cur rem s).2 ≠ none) ↔
        ∀ w, w ∈ rem → w.handle = cur ∨ strContains q w.url = false) := by
  intro rem
  induction rem with
  | nil =>
    intro s _ _
    constructor
    · intro _ w hw; cases hw
    · intro _; simp [windowUrlSearch]
  | cons w rest ih =>
    intro s hsw hmem
    by_cases hwc : w.handle = cur
    · rw [show windowUrlSearch q cur (w :: rest) s =
            windowUrlSearch q cur rest s by simp [windowUrlSearch, hwc]]
      rw [ih s hsw (fun x hx => hmem x (List.mem_cons_of_mem w hx))]
      constructor
      · intro h x hx
        rcases List.mem_cons.1 hx with hxw | hxr
        · exact Or.inl (hxw ▸ hwc)
        · exact h x hxr
      · intro h x hx; exact h x (List.mem_cons_of_mem w hx)
    · have hurl : driverUrl (switchToWindow s w.handle) = w.url := by
        have : (s.windows.map Window.handle).Nodup := by rw [hsw]; exact hnd
        exact driverUrl_switch s w this (by rw [hsw]; exact hmem w (List.mem_cons_self w rest))
      by_cases hct : strContains q w.url = true
      · rw [show windowUrlSearch q cur (w :: rest) s = (switchToWindow s w.handle, none) by
          simp [windowUrlSearch, hwc, hurl, hct]]
        constructor
        · intro h; exact absurd rfl h
        · intro h
          rcases h w (List.mem_cons_self w rest) with h1 | h2
          · exact absurd h1 hwc
          · rw [hct] at h2; cases h2
      · have hct' : strContains q w.url = false := by
          cases hcc : strContains q w.url
          · rfl
          · exact absurd hcc hct
        rw [show windowUrlSearch q cur (w :: rest) s =
              windowUrlSearch q cur rest (switchToWindow s w.handle) by
            simp [windowUrlSearch, hwc, hurl, hct']]
        rw [ih (switchToWindow s w.handle) (by rw [← hsw]; rfl)
              (fun x hx => hmem x (List.mem_cons_of_mem w hx))]
        constructor
        · intro h x hx
          rcases List.mem_cons.1 hx with hxw | hxr
          · exact Or.inr (hxw ▸ hct')
          · exact h x hxr
        · intro h x hx; exact h x (List.mem_cons_of_mem w hx)

theorem windowTitleSearch_err_state (q cur : String) :
    ∀ (rem : List Window) (s : WindowState),
      (windowTitleSearch q cur rem s).2 ≠ none →
      (windowTitleSearch q cur rem s).1.windows = s.windows ∧
      (windowTitleSearch q cur rem s).1.current =
        (((rem.filter (fun w => w.handle != cur)).getLast?).map Window.handle).getD
          s.current := by
  intro rem
  induction rem with
  | nil =>
    intro s _
    exact ⟨rfl, by simp [windowTitleSearch]⟩
  | cons w rest ih =>
    intro s herr
    by_cases hwc : w.handle = cur
    · have hred : windowTitleSearch q cur (w :: rest) s = windowTitleSearch q cur rest s := by
        simp [windowTitleSearch, hwc]
      rw [hred] at herr ⊢
      have hfil : (w :: rest).filter (fun x => x.handle != cur) =
          rest.filter (fun x => x.handle != cur) := by
        simp [List.filter_cons, hwc]
      rw [hfil]
      exact ih s herr
    · by_cases hct : strContains q (driverTitle (switchToWindow s w.handle)) = true
      · have hred : windowTitleSearch q cur (w :: rest) s = (switchToWindow s w.handle, none) := by
          simp [windowTitleSearch, hwc, hct]
        rw [hred] at herr
        exact absurd rfl herr
      · have hct' : strContains q (driverTitle (switchToWindow s w.handle)) = false := by
          cases hcc : strContains q (driverTitle (switchToWindow s w.handle))
          · rfl
          · exact absurd hcc hct
        have hred : windowTitleSearch q cur (w :: rest) s =
            windowTitleSearch q cur rest (switchToWindow s w.handle) := by
          simp [windowTitleSearch, hwc, hct']
        rw [hred] at herr ⊢
        obtain ⟨hw1, hw2⟩ := ih (switchToWindow s w.handle) herr
        refine ⟨by rw [hw1]; rfl, ?_⟩
        rw [hw2]
        have hfil : (w :: rest).filter (fun x => x.handle != cur) =
            w :: rest.filter (fun x => x.handle != cur) := by
          simp [List.filter_cons, hwc]
        rw [hfil]
        cases hfr : rest.filter (fun x => x.handle != cur) with
        | nil => simp [switchToWindow]
        | cons b fbs =>
          rw [List.getLast?_cons_cons]
          cases hlast : (b :: fbs).getLast? with
          | none => exact absurd (List.getLast?_eq_none_iff.1 hlast) (by simp)
          | some x => simp

theorem windowUrlSearch_err_state (q cur : String) :
    ∀ (rem : List Window) (s : WindowState),
      (windowUrlSearch q cur rem s).2 ≠ none →
      (windowUrlSearch q cur rem s).1.windows = s.windows ∧
      (windowUrlSearch q cur rem s).1.current =
        (((rem.filter (fun w => w.handle != cur)).getLast?).map Window.handle).getD
          s.current := by
  intro rem
  induction rem with
  | nil =>
    intro s _
    exact ⟨rfl, by simp [windowUrlSearch]⟩
  | cons w rest ih =>
    intro s herr
    by_cases hwc : w.handle = cur
    · have hred : windowUrlSearch q cur (w :: rest) s = windowUrlSearch q cur rest s := by
        simp [windowUrlSearch, hwc]
      rw [hred] at herr ⊢
      have hfil : (w :: rest).filter (fun x => x.handle != cur) =
          rest.filter (fun x => x.handle != cur) := by
        simp [List.filter_cons, hwc]
      rw [hfil]
      exact ih s herr
    · by_cases hct : strContains q (driverUrl (switchToWindow s w.handle)) = true
      · have hred : windowUrlSearch q cur (w :: rest) s = (switchToWindow s w.handle, none) := by
          simp [windowUrlSearch, hwc, hct]
        rw [hred] at herr
        exact absurd rfl herr
      · have hct' : strContains q (driverUrl (switchToWindow s w.handle)) = false := by
          cases hcc : strContains q (driverUrl (switchToWindow s w.handle))
          · rfl
          · exact absurd hcc hct
        have hred : windowUrlSearch q cur (w :: rest) s =
            windowUrlSearch q cur rest (switchToWindow s w.handle) := by
          simp [windowUrlSearch, hwc, hct']
        rw [hred] at herr ⊢
        obtain ⟨hw1, hw2⟩ := ih (switchToWindow s w.handle) herr
        refine ⟨by rw [hw1]; rfl, ?_⟩
        rw [hw2]
        have hfil : (w :: rest).filter (fun x => x.handle != cur) =
            w :: rest.filter (fun x => x.handle != cur) := by
          simp [List.filter_cons, hwc]
        rw [hfil]
        cases hfr : rest.filter (fun x => x.handle != cur) with
        | nil => simp [switchToWindow]
        | cons b fbs =>
          rw [List.getLast?_cons_cons]
          cases hlast : (b :: fbs).getLast? with
          | none => exact absurd (List.getLast?_eq_none_iff.1 hlast) (by simp)
          | some x => simp

theorem pyIndex_eq_none_iff {α : Type} (l : List α) (i : Int) :
    pyIndex l i = none ↔ ((l.length : Int) ≤ i ∨ i < -(l.length : Int)) := by
  unfold pyIndex
  by_cases h0 : (0 : Int) ≤ i
  · rw [if_pos h0, List.get?_eq_none]
    omega
  · rw [if_neg h0]
    by_cases h1 : (0 : Int) ≤ (l.length : Int) + i
    · rw [if_pos h1, List.get?_eq_none]
      omega
    · rw [if_neg h1]
      constructor
      · intro _; right; omega
      · intro _; rfl

theorem pyIndex_nat {α : Type} (l : List α) (j : Nat) (hj : j < l.length) :
    pyIndex l (j : Int) = some (l.get ⟨j, hj⟩) := by
  unfold pyIndex
  rw [if_pos (by omega : (0 : Int) ≤ (j : Int))]
  have ht : ((j : Int)).toNat = j := rfl
  rw [ht, List.get?_eq_get hj]

theorem presence_isFound (page : Locator → List Element) (loc : Locator) :
    (presence_of_element_located page loc).isFound = true ↔ page loc ≠ [] := by
  unfold presence_of_element_located
  cases page loc with
  | nil => simp [CondRes.isFound]
  | cons e es => simp [CondRes.isFound]

theorem presence_no_notYet (page : Locator → List Element) (loc : Locator) :
    presence_of_element_located page loc ≠ .notYet := by
  unfold presence_of_element_located
  cases page loc with
  | nil => simp
  | cons e es => simp

theorem driver_get_add (jar : List Cookie) (c : Cookie) :
    driver_get_cookie (driver_add_cookie jar c) c.name = some c := by
  induction jar with
  | nil => simp [driver_get_cookie, driver_add_cookie, List.find?_cons]
  | cons k jar ih =>
    by_cases hk : k.name = c.name
    · have hstep : driver_add_cookie (k :: jar) c = driver_add_cookie jar c := by
        simp [driver_add_cookie, List.filter_cons, hk]
      rw [hstep]
      exact ih
    · have h1 : driver_add_cookie (k :: jar) c = k :: driver_add_cookie jar c := by
        simp [driver_add_cookie, List.filter_cons, hk]
      have h2 : List.find? (fun x => x.name == c.name) (k :: driver_add_cookie jar c) =
          List.find? (fun x => x.name == c.name) (driver_add_cookie jar c) := by
        simp [List.find?_cons, hk]
      unfold driver_get_cookie at ih ⊢
      rw [h1, h2]
      exact ih

theorem driver_add_idem (jar : List Cookie) (c : Cookie) :
    driver_add_cookie (driver_add_cookie jar c) c = driver_add_cookie jar c := by
  unfold driver_add_cookie
  simp [List.filter_append, List.filter_filter]

/-- C7: for every cookie jar and every cookie, `add_cookie` of a
name/value mapping followed by `get_cookie` of that name returns exactly
the added cookie (matching name and value), and adding the same cookie
again changes nothing: the jar and the round-trip result are unchanged. -/
theorem cookie_roundtrip (jar : List Cookie) (c : Cookie) :
    get_cookie (add_cookie jar c) c.name = some c ∧
    add_cookie (add_cookie jar c) c = add_cookie jar c ∧
    get_cookie (add_cookie (add_cookie jar c) c) c.name = some c := by
  refine ⟨driver_get_add jar c, driver_add_idem jar c, ?_⟩
  have h : add_cookie (add_cookie jar c) c = add_cookie jar c := driver_add_idem jar c
  rw [h]
  exact driver_get_add jar c

/-- C2 counterexample: an element that is present throughout but never
visible (`displayed = false` at every tick) does not satisfy
`wait_for_invisible_element`; the wait times out instead of succeeding,
because the code waits on `until_not(presence)`, not on invisibility. -/
theorem wait_for_invisible_counterexample :
    wait_for_invisible_element hiddenTrace By.id "hidden" 10 = .error .timeout ∧
    hiddenElem.displayed = false := ⟨rfl, rfl⟩

/-- C2 amended: the invisibility wait is satisfied by absence only: for
every locator it succeeds (returning `true`) exactly when the element is
absent from the document at some poll tick within the timeout, and it
times out exactly when the element stays present — visible or not —
throughout the timeout window. -/
theorem wait_for_invisible_absence_only (trace : Trace) (by_ : By) (value : String)
    (timeout : Nat) :
    (wait_for_invisible_element trace by_ value timeout = .ok true ↔
      ∃ t, t ≤ timeout ∧ trace.page t ⟨by_, value⟩ = []) ∧
    (wait_for_invisible_element trace by_ value timeout = .error .timeout ↔
      ∀ t, t ≤ timeout → trace.page t ⟨by_, value⟩ ≠ []) := by
  have herr : wait_for_invisible_element trace by_ value timeout = .error .timeout ↔
      ∀ t, t ≤ timeout → trace.page t ⟨by_, value⟩ ≠ [] := by
    unfold wait_for_invisible_element webDriverWaitUntilNot
    rw [untilNotGo_err_iff]
    constructor
    · intro h t ht
      have hx := h t (by omega)
      rw [Nat.zero_add] at hx
      exact (presence_isFound (trace.page t) ⟨by_, value⟩).1 hx
    · intro h k hk
      rw [Nat.zero_add]
      exact (presence_isFound (trace.page k) ⟨by_, value⟩).2 (h k (by omega))
  have hcases := untilNotGo_cases
    (fun t => presence_of_element_located (trace.page t) ⟨by_, value⟩)
    (fun t => presence_no_notYet (trace.page t) ⟨by_, value⟩) (timeout + 1) 0
  refine ⟨?_, herr⟩
  constructor
  · intro hok
    by_contra hne
    push_neg at hne
    have herr2 := herr.2 hne
    rw [hok] at herr2
    exact absurd herr2 (by simp)
  · intro hex
    obtain ⟨t, ht, hempty⟩ := hex
    rcases hcases with hok | herr1
    · exact hok
    · have hall := herr.1 herr1
      exact absurd hempty (hall t ht)

/-- C4 counterexample: with one open window, the index `-2` is smaller
than the window count, yet the call raises an index error (the guard
`index < len(handles)` passes and the Python list indexing itself fails),
falsifying the only-if direction of the claim. -/
theorem switch_by_index_counterexample :
    ((-2 : Int) < (soloWindow.windows.length : Int)) ∧
    (switch_to_window_by_index soloWindow (-2)).2 =
      some (Err.indexError "list index out of range") := by
  constructor
  · decide
  · rfl

/-- C4 amended: `switch_to_window_by_index` raises an IndexError if and
only if the index is greater than or equal to the number of open window
handles, or smaller than minus that number (Python negative indexing
counts from the back); for every in-range nonnegative index it switches
focus to the handle at that index and raises nothing. -/
theorem switch_by_index_amended (s : WindowState) (i : Int) :
    ((switch_to_window_by_index s i).2 ≠ none ↔
      ((s.windows.length : Int) ≤ i ∨ i < -(s.windows.length : Int))) ∧
    (∀ j : Nat, ∀ hj : j < s.windows.length,
      switch_to_window_by_index s (j : Int) =
        (switchToWindow s (s.windows.get ⟨j, hj⟩).handle, none)) := by
  constructor
  · unfold switch_to_window_by_index
    by_cases hlt : i < (s.windows.length : Int)
    · rw [if_pos hlt]
      cases hpi : pyIndex s.windows i with
      | some w =>
        simp only
        constructor
        · intro hx; exact absurd rfl hx
        · intro hx
          rw [(pyIndex_eq_none_iff s.windows i).2 hx] at hpi
          cases hpi
      | none =>
        simp only
        constructor
        · intro _; exact (pyIndex_eq_none_iff s.windows i).1 hpi
        · intro _; simp
    · rw [if_neg hlt]
      constructor
      · intro _; left; omega
      · intro _; simp
  · intro j hj
    unfold switch_to_window_by_index
    rw [if_pos (by exact_mod_cast hj), pyIndex_nat s.windows j hj]

/-- C4 amended witness: with one open window, index 0 switches to the
only handle without error. -/
theorem switch_by_index_amended_witness :
    switch_to_window_by_index soloWindow 0 = (switchToWindow soloWindow "h1", none) :=
  (switch_by_index_amended soloWindow 0).2 0 (by decide)

/-- C1: a timeout failure raised during a wait is caught and converted to
the return value `false` by exactly the two query operations
`is_element_displayed` and `is_element_clickable` (which in fact never
surface any failure); every other waiting operation — `click_element`,
`input_text`, `get_element_text`, the dropdown selections,
`wait_for_element` itself, and the alert operations built on
`wait_for_alert` — propagates the timeout failure unchanged. -/
theorem timeout_policy (trace : Trace) (by_ : By) (value : String) (s : String) :
    (wait_for_visible_element trace by_ value 10 = .error .timeout →
      is_element_displayed trace by_ value = .ok false) ∧
    (∀ timeout, wait_for_clickable_element trace by_ value timeout = .error .timeout →
      is_element_clickable trace by_ value timeout = .ok false) ∧
    (∃ r, is_element_displayed trace by_ value = .ok r) ∧
    (∀ timeout, ∃ r, is_element_clickable trace by_ value timeout = .ok r) ∧
    (wait_for_element trace by_ value 10 = .error .timeout →
      click_element trace by_ value = .error .timeout ∧
      input_text trace by_ value s = .error .timeout ∧
      get_element_text trace by_ value = .error .timeout ∧
      select_dropdown_option_by_visible_text trace by_ value s = .error .timeout ∧
      select_dropdown_option_by_value trace by_ value s = .error .timeout) ∧
    (wait_for_alert trace 10 = .error .timeout →
      accept_alert trace = .error .timeout ∧
      get_alert_text trace = .error .timeout) := by
  refine ⟨?_, ?_, ?_, ?_, ?_, ?_⟩
  · intro h
    unfold is_element_displayed
    rw [h]
  · intro timeout h
    unfold is_element_clickable
    rw [h]
  · rcases untilGo_fst_cases
      (fun t => visibility_of_element_located (trace.page t) ⟨by_, value⟩) 11 0 with
      ⟨e, he⟩ | herr
    · refine ⟨e.displayed, ?_⟩
      unfold is_element_displayed
      rw [show wait_for_visible_element trace by_ value 10 = .ok e from he]
    · refine ⟨false, ?_⟩
      unfold is_element_displayed
      rw [show wait_for_visible_element trace by_ value 10 = .error .timeout from herr]
  · intro timeout
    rcases untilGo_fst_cases
      (fun t => element_to_be_clickable (trace.page t) ⟨by_, value⟩) (timeout + 1) 0 with
      ⟨e, he⟩ | herr
    · refine ⟨true, ?_⟩
      unfold is_element_clickable
      rw [show wait_for_clickable_element trace by_ value timeout = .ok e from he]
    · refine ⟨false, ?_⟩
      unfold is_element_clickable
      rw [show wait_for_clickable_element trace by_ value timeout = .error .timeout from herr]
  · intro h
    refine ⟨?_, ?_, ?_, ?_, ?_⟩
    · unfold click_element; rw [h]
    · unfold input_text; rw [h]
    · unfold get_element_text; rw [h]
    · unfold select_dropdown_option_by_visible_text; rw [h]
    · unfold select_dropdown_option_by_value; rw [h]
  · intro h
    constructor
    · unfold accept_alert; rw [h]
    · unfold get_alert_text; rw [h]

/-- C1 witness: on a session where nothing ever appears, the two query
operations return `false` while an action and an alert operation surface
the timeout failure. -/
theorem timeout_policy_witness :
    is_element_displayed emptyTrace By.id "q" = .ok false ∧
    is_element_clickable emptyTrace By.id "q" 2 = .ok false ∧
    click_element emptyTrace By.id "q" = .error .timeout ∧
    accept_alert emptyTrace = .error .timeout := by
  have h := timeout_policy emptyTrace By.id "q" "txt"
  exact ⟨h.1 rfl, h.2.1 2 rfl, (h.2.2.2.2.1 rfl).1, (h.2.2.2.2.2 rfl).1⟩

/-- C5: when a locator matches zero elements throughout, every
presence-waiting operation fails with a timeout failure, and the failure
is raised only after the elapsed time has strictly exceeded the requested
timeout (elapsed = timeout + one poll interval), never earlier. -/
theorem presence_timeout_lower_bound (trace : Trace) (by_ : By) (value : String)
    (timeout : Nat) (hempty : ∀ t, trace.page t ⟨by_, value⟩ = []) :
    wait_for_element trace by_ value timeout = .error .timeout ∧
    (wait_for_element_timed trace by_ value timeout).2 = timeout + 1 ∧
    timeout < (wait_for_element_timed trace by_ value timeout).2 ∧
    click_element trace by_ value = .error .timeout := by
  have hnf : ∀ k : Nat,
      (presence_of_element_located (trace.page k) ⟨by_, value⟩).isFound = false := by
    intro k
    cases hf : (presence_of_element_located (trace.page k) ⟨by_, value⟩).isFound
    · rfl
    · exact absurd (hempty k)
        ((presence_isFound (trace.page k) ⟨by_, value⟩).1 hf)
  have herr : wait_for_element trace by_ value timeout = .error .timeout :=
    (untilGo_err_iff
      (fun t => presence_of_element_located (trace.page t) ⟨by_, value⟩)
      (timeout + 1) 0).2 (fun k _ => hnf (0 + k))
  have helapsed : (wait_for_element_timed trace by_ value timeout).2 = timeout + 1 := by
    have hx := untilGo_err_elapsed
      (fun t => presence_of_element_located (trace.page t) ⟨by_, value⟩)
      (timeout + 1) 0 herr
    simpa using hx
  have herr10 : wait_for_element trace by_ value 10 = .error .timeout :=
    (untilGo_err_iff
      (fun t => presence_of_element_located (trace.page t) ⟨by_, value⟩)
      11 0).2 (fun k _ => hnf (0 + k))
  refine ⟨herr, helapsed, by rw [helapsed]; omega, ?_⟩
  unfold click_element
  rw [herr10]

/-- C5 witness: the scenario of the spec, a locator matching nothing with
timeout 1: the wait fails with the timeout failure, after elapsed time
strictly greater than 1, and `click_element` propagates it. -/
theorem presence_timeout_lower_bound_witness :
    wait_for_element emptyTrace By.id "missing" 1 = .error .timeout ∧
    (wait_for_element_timed emptyTrace By.id "missing" 1).2 = 2 ∧
    1 < (wait_for_element_timed emptyTrace By.id "missing" 1).2 ∧
    click_element emptyTrace By.id "missing" = .error .timeout :=
  presence_timeout_lower_bound emptyTrace By.id "missing" 1 (fun _ => rfl)

/-- C6: `click_element` waits only for presence before acting — any
element present at some tick within the default window makes it succeed,
whether or not the element is ever visible or enabled — and on success it
performs exactly one click action, on the resolved element, and returns
nothing else. -/
theorem click_element_spec (trace : Trace) (by_ : By) (value : String) :
    (∀ e, wait_for_element trace by_ value 10 = .ok e →
      click_element trace by_ value = .ok [Action.click e]) ∧
    ((∃ t, t ≤ 10 ∧ trace.page t ⟨by_, value⟩ ≠ []) →
      ∃ e, click_element trace by_ value = .ok [Action.click e]) := by
  constructor
  · intro e he
    unfold click_element
    rw [he]
  · intro hex
    obtain ⟨t, ht, hne⟩ := hex
    have hf : (presence_of_element_located (trace.page t) ⟨by_, value⟩).isFound = true :=
      (presence_isFound (trace.page t) ⟨by_, value⟩).2 hne
    obtain ⟨e, he⟩ := untilGo_ok_of_found
      (fun k => presence_of_element_located (trace.page k) ⟨by_, value⟩) 11 0
      ⟨t, by omega, by simpa using hf⟩
    refine ⟨e, ?_⟩
    unfold click_element
    rw [show wait_for_element trace by_ value 10 = .ok e from he]

/-- C6 witness: an element that is never displayed nor enabled (so never
clickable) is still clicked, exactly once, because only presence is
awaited. -/
theorem click_element_spec_witness :
    click_element hiddenTrace By.id "hidden" = .ok [Action.click hiddenElem] :=
  (click_element_spec hiddenTrace By.id "hidden").1 hiddenElem rfl

/-- C8: every embedded wait takes its timeout as a per-call parameter
whose default is 10 (the first six conjuncts hold definitionally: omitting
the argument is the same call as passing 10); the outcome of a wait is
determined exactly by the poll window `0 .. timeout` of that one call, so
each call may independently request shorter or longer patience, and a
success within a shorter window is preserved by any longer one. -/
theorem timeouts_per_call (trace : Trace) (by_ : By) (value : String) :
    wait_for_element trace by_ value = wait_for_element trace by_ value 10 ∧
    wait_for_visible_element trace by_ value = wait_for_visible_element trace by_ value 10 ∧
    wait_for_invisible_element trace by_ value = wait_for_invisible_element trace by_ value 10 ∧
    is_element_clickable trace by_ value = is_element_clickable trace by_ value 10 ∧
    wait_for_elements trace by_ value = wait_for_elements trace by_ value 10 ∧
    wait_for_alert trace = wait_for_alert trace 10 ∧
    (∀ timeout, wait_for_element trace by_ value timeout = .error .timeout ↔
      ∀ t, t ≤ timeout → trace.page t ⟨by_, value⟩ = []) ∧
    (∀ t1 t2, t1 ≤ t2 → (∃ e, wait_for_element trace by_ value t1 = .ok e) →
      ∃ e, wait_for_element trace by_ value t2 = .ok e) := by
  refine ⟨rfl, rfl, rfl, rfl, rfl, rfl, ?_, ?_⟩
  · intro timeout
    unfold wait_for_element wait_for_element_timed webDriverWaitUntil
    rw [untilGo_err_iff]
    constructor
    · intro h t ht
      have hx := h t (by omega)
      rw [Nat.zero_add] at hx
      cases hp : trace.page t ⟨by_, value⟩ with
      | nil => rfl
      | cons e es =>
        have := (presence_isFound (trace.page t) ⟨by_, value⟩).2 (by rw [hp]; simp)
        rw [this] at hx
        cases hx
    · intro h k hk
      rw [Nat.zero_add]
      cases hf : (presence_of_element_located (trace.page k) ⟨by_, value⟩).isFound
      · rfl
      · exact absurd (h k (by omega))
          ((presence_isFound (trace.page k) ⟨by_, value⟩).1 hf)
  · intro t1 t2 h12 hok
    obtain ⟨e, he⟩ := hok
    obtain ⟨k, hk, hc⟩ := untilGo_ok_found
      (fun t => presence_of_element_located (trace.page t) ⟨by_, value⟩)
      (t1 + 1) 0 e he
    rw [Nat.zero_add] at hc
    exact untilGo_ok_of_found
      (fun t => presence_of_element_located (trace.page t) ⟨by_, value⟩)
      (t2 + 1) 0 ⟨k, by omega, by simp [hc, CondRes.isFound]⟩

/-- C8 witness: the default-timeout equalities at a concrete session, the
per-call window characterisation at timeout 5, and patience extension from
timeout 3 to timeout 7. -/
theorem timeouts_per_call_witness :
    wait_for_element hiddenTrace By.id "x" = wait_for_element hiddenTrace By.id "x" 10 ∧
    (wait_for_element hiddenTrace By.id "x" 5 = .error .timeout ↔
      ∀ t, t ≤ 5 → hiddenTrace.page t ⟨By.id, "x"⟩ = []) ∧
    (∃ e, wait_for_element hiddenTrace By.id "x" 7 = .ok e) := by
  have h := timeouts_per_call hiddenTrace By.id "x"
  exact ⟨h.1, h.2.2.2.2.2.2.1 5,
    h.2.2.2.2.2.2.2 3 7 (by omega) ⟨hiddenElem, rfl⟩⟩

/-- C9: once `wait_for_elements` has resolved a (necessarily nonempty)
match list, `click_elements` with no index clicks every matched element in
order; with an index at least the match count it fails with an index
error (not a timeout failure) from the unguarded list indexing; and with
an in-range nonnegative index it clicks exactly the element at that
index. -/
theorem click_elements_spec (trace : Trace) (by_ : By) (value : String)
    (es : List Element) (hes : wait_for_elements trace by_ value 10 = .ok es) :
    es ≠ [] ∧
    click_elements trace by_ value none = .ok (es.map Action.click) ∧
    (∀ i : Int, (es.length : Int) ≤ i →
      click_elements trace by_ value (some i) =
        .error (.indexError "list index out of range")) ∧
    (∀ j : Nat, ∀ hj : j < es.length,
      click_elements trace by_ value (some (j : Int)) =
        .ok [Action.click (es.get ⟨j, hj⟩)]) := by
  have hnil : es ≠ [] := by
    obtain ⟨k, _, hk⟩ := untilGo_ok_found
      (fun t => presence_of_all_elements_located (trace.page t) ⟨by_, value⟩)
      11 0 es hes
    unfold presence_of_all_elements_located at hk
    cases hpage : trace.page (0 + k) ⟨by_, value⟩ with
    | nil => rw [hpage] at hk; cases hk
    | cons a l =>
      rw [hpage] at hk
      injection hk with hk2
      rw [← hk2]
      simp
  refine ⟨hnil, ?_, ?_, ?_⟩
  · unfold click_elements
    rw [hes]
  · intro i hi
    have hred : click_elements trace by_ value (some i) =
        (match pyIndex es i with
          | some e => Except.ok [Action.click e]
          | none => Except.error (Err.indexError "list index out of range")) := by
      unfold click_elements
      rw [hes]
    rw [hred, (pyIndex_eq_none_iff es i).2 (Or.inl hi)]
  · intro j hj
    have hred : click_elements trace by_ value (some (j : Int)) =
        (match pyIndex es (j : Int) with
          | some e => Except.ok [Action.click e]
          | none => Except.error (Err.indexError "list index out of range")) := by
      unfold click_elements
      rw [hes]
    rw [hred, pyIndex_nat es j hj]

/-- C9 witness: one matched element; index 1 is out of range and yields
the index error, no index clicks the whole match list. -/
theorem click_elements_spec_witness :
    click_elements hiddenTrace By.id "hidden" (some 1) =
      .error (.indexError "list index out of range") ∧
    click_elements hiddenTrace By.id "hidden" none = .ok [Action.click hiddenElem] := by
  have h := click_elements_spec hiddenTrace By.id "hidden" [hiddenElem] rfl
  exact ⟨h.2.2.1 1 (by decide), h.2.1⟩

theorem windowTitleSearch_err_shape (q cur : String) :
    ∀ (rem : List Window) (s : WindowState),
      (windowTitleSearch q cur rem s).2 = none ∨
      ∃ m, (windowTitleSearch q cur rem s).2 = some (Err.noSuchWindow m) := by
  intro rem
  induction rem with
  | nil => intro s; exact Or.inr ⟨_, rfl⟩
  | cons w rest ih =>
    intro s
    by_cases hwc : w.handle = cur
    · rw [show windowTitleSearch q cur (w :: rest) s = windowTitleSearch q cur rest s from by
        simp [windowTitleSearch, hwc]]
      exact ih s
    · by_cases hct : strContains q (driverTitle (switchToWindow s w.handle)) = true
      · rw [show windowTitleSearch q cur (w :: rest) s = (switchToWindow s w.handle, none) from by
          simp [windowTitleSearch, hwc, hct]]
        exact Or.inl rfl
      · have hct' : strContains q (driverTitle (switchToWindow s w.handle)) = false := by
          cases hcc : strContains q (driverTitle (switchToWindow s w.handle))
          · rfl
          · exact absurd hcc hct
        rw [show windowTitleSearch q cur (w :: rest) s =
              windowTitleSearch q cur rest (switchToWindow s w.handle) from by
            simp [windowTitleSearch, hwc, hct']]
        exact ih (switchToWindow s w.handle)

theorem windowUrlSearch_err_shape (q cur : String) :
    ∀ (rem : List Window) (s : WindowState),
      (windowUrlSearch q cur rem s).2 = none ∨
      ∃ m, (windowUrlSearch q cur rem s).2 = some (Err.noSuchWindow m) := by
  intro rem
  induction rem with
  | nil => intro s; exact Or.inr ⟨_, rfl⟩
  | cons w rest ih =>
    intro s
    by_cases hwc : w.handle = cur
    · rw [show windowUrlSearch q cur (w :: rest) s = windowUrlSearch q cur rest s from by
        simp [windowUrlSearch, hwc]]
      exact ih s
    · by_cases hct : strContains q (driverUrl (switchToWindow s w.handle)) = true
      · rw [show windowUrlSearch q cur (w :: rest) s = (switchToWindow s w.handle, none) from by
          simp [windowUrlSearch, hwc, hct]]
        exact Or.inl rfl
      · have hct' : strContains q (driverUrl (switchToWindow s w.handle)) = false := by
          cases hcc : strContains q (driverUrl (switchToWindow s w.handle))
          · rfl
          · exact absurd hcc hct
        rw [show windowUrlSearch q cur (w :: rest) s =
              windowUrlSearch q cur rest (switchToWindow s w.handle) from by
            simp [windowUrlSearch, hwc, hct']]
        exact ih (switchToWindow s w.handle)

/-- C3: with distinct window handles, `switch_to_window_by_title`
(respectively `switch_to_window_by_url`) raises its no-such-window
failure if and only if no window handle other than the one current at call
time has a title (respectively URL) containing the given substring — the
loop visits every non-current handle before concluding failure, so failure
is exactly the absence of any matching non-current window. -/
theorem switch_to_window_notfound_iff (s : WindowState) (q : String)
    (hnd : (s.windows.map Window.handle).Nodup) :
    ((∃ m, (switch_to_window_by_title s q).2 = some (Err.noSuchWindow m)) ↔
      ∀ w, w ∈ s.windows → w.handle = s.current ∨ strContains q w.title = false) ∧
    ((∃ m, (switch_to_window_by_url s q).2 = some (Err.noSuchWindow m)) ↔
      ∀ w, w ∈ s.windows → w.handle = s.current ∨ strContains q w.url = false) := by
  constructor
  · have hiff := windowTitleSearch_err_iff q s.current s.windows hnd s.windows s rfl
      (fun _ h => h)
    constructor
    · intro hex
      obtain ⟨m, hm⟩ := hex
      refine hiff.1 ?_
      intro hnone
      rw [show (windowTitleSearch q s.current s.windows s).2 =
            (switch_to_window_by_title s q).2 from rfl, hm] at hnone
      cases hnone
    · intro hall
      have hne := hiff.2 hall
      rcases windowTitleSearch_err_shape q s.current s.windows s with hn | hsome
      · exact absurd hn hne
      · exact hsome
  · have hiff := windowUrlSearch_err_iff q s.current s.windows hnd s.windows s rfl
      (fun _ h => h)
    constructor
    · intro hex
      obtain ⟨m, hm⟩ := hex
      refine hiff.1 ?_
      intro hnone
      rw [show (windowUrlSearch q s.current s.windows s).2 =
            (switch_to_window_by_url s q).2 from rfl, hm] at hnone
      cases hnone
    · intro hall
      have hne := hiff.2 hall
      rcases windowUrlSearch_err_shape q s.current s.windows s with hn | hsome
      · exact absurd hn hne
      · exact hsome

/-- C3 witness: two windows, neither non-current title contains
"Settings", so the title search raises the no-such-window failure;
searching for a URL substring carried by the second window raises
nothing. -/
theorem switch_to_window_notfound_iff_witness :
    (∃ m, (switch_to_window_by_title demoWindows "Settings").2 =
      some (Err.noSuchWindow m)) ∧
    ¬ ∃ m, (switch_to_window_by_url demoWindows "b.example").2 =
      some (Err.noSuchWindow m) := by
  constructor
  · exact (switch_to_window_notfound_iff demoWindows "Settings" (by decide)).1.2
      (by decide)
  · intro hex
    have := (switch_to_window_notfound_iff demoWindows "b.example" (by decide)).2.1 hex
    have hx := this ⟨"h2", "Docs", "http://b.example"⟩ (by decide)
    rcases hx with h1 | h2
    · exact absurd h1 (by decide)
    · exact absurd h2 (by decide)

/-- C10: when the title or URL window search fails and at least one
non-current handle exists, focus is not restored: afterwards the session
is focused on the last non-current handle examined, which differs from the
handle that was current at call time. -/
theorem switch_to_window_err_focus (s : WindowState) (q : String)
    (hex : ∃ w, w ∈ s.windows ∧ w.handle ≠ s.current) :
    ((switch_to_window_by_title s q).2 ≠ none →
      ∃ w, (s.windows.filter (fun x => x.handle != s.current)).getLast? = some w ∧
        (switch_to_window_by_title s q).1.current = w.handle ∧
        (switch_to_window_by_title s q).1.current ≠ s.current) ∧
    ((switch_to_window_by_url s q).2 ≠ none →
      ∃ w, (s.windows.filter (fun x => x.handle != s.current)).getLast? = some w ∧
        (switch_to_window_by_url s q).1.current = w.handle ∧
        (switch_to_window_by_url s q).1.current ≠ s.current) := by
  obtain ⟨w0, hw0mem, hw0ne⟩ := hex
  have hmemf : w0 ∈ s.windows.filter (fun x => x.handle != s.current) :=
    List.mem_filter.2 ⟨hw0mem, by simpa using hw0ne⟩
  have hnef : s.windows.filter (fun x => x.handle != s.current) ≠ [] :=
    List.ne_nil_of_mem hmemf
  have hlast := List.getLast?_eq_getLast_of_ne_nil hnef
  set wl := (s.windows.filter (fun x => x.handle != s.current)).getLast hnef with hwl
  have hwlmem : wl ∈ s.windows.filter (fun x => x.handle != s.current) :=
    List.getLast_mem hnef
  have hwlne : wl.handle ≠ s.current := by
    have := (List.mem_filter.1 hwlmem).2
    simpa using this
  constructor
  · intro herr
    have hst := windowTitleSearch_err_state q s.current s.windows s herr
    have hst2 : (switch_to_window_by_title s q).1.current =
        (Option.map Window.handle
          ((s.windows.filter (fun x => x.handle != s.current)).getLast?)).getD s.current :=
      hst.2
    refine ⟨wl, hlast, ?_, ?_⟩
    · rw [hst2, hlast]
      rfl
    · rw [hst2, hlast]
      exact hwlne
  · intro herr
    have hst := windowUrlSearch_err_state q s.current s.windows s herr
    have hst2 : (switch_to_window_by_url s q).1.current =
        (Option.map Window.handle
          ((s.windows.filter (fun x => x.handle != s.current)).getLast?)).getD s.current :=
      hst.2
    refine ⟨wl, hlast, ?_, ?_⟩
    · rw [hst2, hlast]
      rfl
    · rw [hst2, hlast]
      exact hwlne

/-- C10 witness: a failing title search over two windows leaves focus on
the last non-current handle, not on the original one. -/
theorem switch_to_window_err_focus_witness :
    (switch_to_window_by_title demoWindows "Settings").1.current = "h2" ∧
    (switch_to_window_by_title demoWindows "Settings").1.current ≠ demoWindows.current := by
  have h := (switch_to_window_err_focus demoWindows "Settings"
    ⟨⟨"h2", "Docs", "http://b.example"⟩, by decide, by decide⟩).1 (by decide)
  obtain ⟨w, hw, hcur, hne⟩ := h
  have hwval : w = ⟨"h2", "Docs", "http://b.example"⟩ := by
    have hconc : (demoWindows.windows.filter
        (fun x => x.handle != demoWindows.current)).getLast? =
        some ⟨"h2", "Docs", "http://b.example"⟩ := by decide
    rw [hconc] at hw
    exact (Option.some.inj hw).symm
  constructor
  · rw [hcur, hwval]
  · exact hne

end AutomationFramework
